import Mathlib

/-!
Shallow embedding of the whisper-as-a-service core (src/security.py,
src/queue_processor.py, src/init_db.py, api.py) together with theorems
checking the natural-language specification against the code.

Conventions of the embedding:
* the PostgreSQL tables are modelled as Lean lists of rows, in insertion
  order (SERIAL ids are assigned monotonically, so list order is id order);
* timestamps are integers (seconds); SQL NULL is Option.none;
* a SQL NULL array and an empty array are both modelled as the empty list,
  because every use in the source only tests Python truthiness, under which
  the two are indistinguishable;
* Python exceptions are modelled with Except String, carrying the message;
* IP addresses are modelled as IPv4 only (the only kind the specification
  exercises); Python ipaddress.ip_address / ip_network parsing is modelled
  by parseIPv4 / parseCIDR below, parse failure standing for the raised
  ValueError.
-/

/-! ## Key store model (src/security.py, schema from src/init_db.py) -/

/-- A row of the api_keys table (src/init_db.py, CREATE TABLE api_keys). -/
structure ApiKeyRow where
  id : Nat
  key_hash : String
  name : String
  created_at : Int
  expires_at : Option Int
  is_active : Bool
  last_used_at : Option Int
  use_count : Nat
  allowed_ips : List String
deriving Repr, DecidableEq

abbrev KeyStore := List ApiKeyRow

/-- The dictionary validate_api_key returns on success (src/security.py,
lines 138-146); use_count is the value read before the usage update. -/
structure KeyInfo where
  id : Nat
  name : String
  created_at : Int
  expires_at : Option Int
  is_active : Bool
  use_count : Nat
  allowed_ips : List String
deriving Repr, DecidableEq

def toKeyInfo (r : ApiKeyRow) : KeyInfo :=
  { id := r.id, name := r.name, created_at := r.created_at,
    expires_at := r.expires_at, is_active := r.is_active,
    use_count := r.use_count, allowed_ips := r.allowed_ips }

/-- The listing dictionary produced by get_api_keys (src/security.py,
lines 172-184). -/
structure KeyListing where
  id : Nat
  name : String
  created_at : Int
  expires_at : Option Int
  is_active : Bool
  last_used_at : Option Int
  use_count : Nat
  allowed_ips : List String
deriving Repr, DecidableEq

def toKeyListing (r : ApiKeyRow) : KeyListing :=
  { id := r.id, name := r.name, created_at := r.created_at,
    expires_at := r.expires_at, is_active := r.is_active,
    last_used_at := r.last_used_at, use_count := r.use_count,
    allowed_ips := r.allowed_ips }

/-! ### IPv4 parsing, modelling Python ipaddress for the dotted-quad form -/

def digitsToNat (cs : List Char) : Nat :=
  cs.foldl (fun a c => a * 10 + (c.toNat - 48)) 0

/-- Split a character list on a single separator character, as Python
str.split with one-character separator: the empty string yields one empty
field. -/
def splitOnChar (sep : Char) : List Char → List (List Char)
  | [] => [[]]
  | c :: rest =>
    if c == sep then [] :: splitOnChar sep rest
    else
      match splitOnChar sep rest with
      | h :: t => (c :: h) :: t
      | [] => [[c]]

def charContains (cs : List Char) (c : Char) : Bool :=
  cs.any (fun x => x == c)

/-- A valid IPv4 octet: nonempty, digits only, no leading zero except the
single digit 0 itself, value at most 255 (ip_address rejects leading zeros). -/
def validOctet (cs : List Char) : Bool :=
  !cs.isEmpty && cs.all Char.isDigit &&
    (cs == ['0'] || cs.headD ' ' ≠ '0') && digitsToNat cs ≤ 255

/-- Parse a dotted-quad IPv4 address into its 32-bit numeric value. -/
def parseIPv4Chars (cs : List Char) : Option Nat :=
  match splitOnChar '.' cs with
  | [a, b, c, d] =>
    if validOctet a && validOctet b && validOctet c && validOctet d then
      some (((digitsToNat a * 256 + digitsToNat b) * 256 + digitsToNat c) * 256
        + digitsToNat d)
    else none
  | _ => none

def parseIPv4 (s : String) : Option Nat := parseIPv4Chars s.data

/-- Parse the CIDR mask length: digits, at most 32. -/
def parseMaskLen (cs : List Char) : Option Nat :=
  if !cs.isEmpty && cs.all Char.isDigit && digitsToNat cs ≤ 32 then
    some (digitsToNat cs)
  else none

/-- Parse an a.b.c.d/n network. Host bits are not required to be zero,
modelling ip_network(entry, strict := False) in the source. -/
def parseCIDR (s : String) : Option (Nat × Nat) :=
  match splitOnChar '/' s.data with
  | [ip, p] =>
    match parseIPv4Chars ip, parseMaskLen p with
    | some a, some n => some (a, n)
    | _, _ => none
  | _ => none

/-- Membership of an address in a network: the first p bits agree
(host bits of the base are masked away, as with strict := False). -/
def inNetwork (ip base p : Nat) : Bool :=
  ip / 2 ^ (32 - p) == base / 2 ^ (32 - p)

/-! ### validate_api_key (src/security.py, lines 62-148) -/

/-- Python truthiness of the optional client_ip string. -/
def clientTruthy : Option String → Bool
  | some s => s ≠ ""
  | none => false

/-- The expiry test of validate_api_key, line 98:
result has expires_at set and now is strictly after it. -/
def isExpired (r : ApiKeyRow) (now : Int) : Bool :=
  match r.expires_at with
  | some t => decide (now > t)
  | none => false

/-- UPDATE api_keys SET is_active = FALSE WHERE id = $1 (line 100). -/
def deactivateKey (store : KeyStore) (kid : Nat) : KeyStore :=
  store.map (fun r => if r.id == kid then { r with is_active := false } else r)

/-- UPDATE api_keys SET last_used_at = NOW(), use_count = use_count + 1
WHERE id = $1 (lines 128-136). -/
def updateUsage (store : KeyStore) (kid : Nat) (now : Int) : KeyStore :=
  store.map (fun r =>
    if r.id == kid then { r with last_used_at := some now, use_count := r.use_count + 1 }
    else r)

/-- The per-entry test of the IP loop body: an entry containing a slash is
treated as a CIDR network, otherwise compared to the client IP as a string
(lines 111-122). -/
def entryMatch (cstr : String) (cip : Nat) (e : String) : Bool :=
  if charContains e.data '/' then
    match parseCIDR e with
    | some (b, p) => inNetwork cip b p
    | none => false
  else cstr == e

/-- The for-loop over allowed_ips with its break on first match
(lines 109-122); a malformed CIDR entry raises ValueError. -/
def ipLoop (cstr : String) (cip : Nat) : List String → Except String Bool
  | [] => .ok false
  | e :: rest =>
    if charContains e.data '/' then
      match parseCIDR e with
      | none => .error "ValueError: invalid network"
      | some (b, p) => if inNetwork cip b p then .ok true else ipLoop cstr cip rest
    else
      if cstr == e then .ok true else ipLoop cstr cip rest

/-- validate_api_key (src/security.py, lines 62-148), parameterised by the
hash function; returns the possibly-updated store together with the result
dictionary (none models the Python return None). -/
def validate_api_key (hashf : String → String) (store : KeyStore)
    (api_key : String) (client_ip : Option String) (now : Int) :
    Except String (KeyStore × Option KeyInfo) :=
  if api_key = "" then .ok (store, none)
  else
    match store.find? (fun r => r.key_hash == hashf api_key) with
    | none => .ok (store, none)
    | some row =>
      if row.is_active = false then .ok (store, none)
      else if isExpired row now then .ok (deactivateKey store row.id, none)
      else if !row.allowed_ips.isEmpty && clientTruthy client_ip then
        match client_ip with
        | none => .ok (store, none)
        | some cstr =>
          match parseIPv4 cstr with
          | none => .error "ValueError: invalid address"
          | some cip =>
            match ipLoop cstr cip row.allowed_ips with
            | .error m => .error m
            | .ok true => .ok (updateUsage store row.id now, some (toKeyInfo row))
            | .ok false => .ok (store, none)
      else .ok (updateUsage store row.id now, some (toKeyInfo row))

/-- get_api_keys (src/security.py, lines 150-186). -/
def get_api_keys (active_only : Bool) (store : KeyStore) : List KeyListing :=
  (if active_only then store.filter (fun r => r.is_active) else store).map toKeyListing

/-! ### revoke_api_key (src/security.py, lines 188-207) -/

/-- Byte-level prefix test on character lists. -/
def leadsB : List Char → List Char → Bool
  | [], _ => true
  | _ :: _, [] => false
  | a :: as, b :: bs => a == b && leadsB as bs

/-- Contiguous-sublist test, modelling the Python in operator on strings. -/
def subListB (n : List Char) : List Char → Bool
  | [] => n.isEmpty
  | c :: rest => leadsB n (c :: rest) || subListB n rest

def containsSub (needle hay : String) : Bool :=
  subListB needle.data hay.data

/-- revoke_api_key: runs UPDATE api_keys SET is_active = FALSE WHERE id = $1
and returns whether "UPDATE 1" occurs in the asyncpg command tag, which is
"UPDATE " followed by the number of rows matched by the WHERE clause
(Postgres counts matched rows whether or not any value changed). -/
def revoke_api_key (store : KeyStore) (key_id : Nat) : KeyStore × Bool :=
  let matched := store.countP (fun r => r.id == key_id)
  (store.map (fun r => if r.id == key_id then { r with is_active := false } else r),
   containsSub "UPDATE 1" ("UPDATE " ++ toString matched))

/-! ### generate_api_key (src/security.py, lines 19-60) -/

/-- The expiry computation of generate_api_key, line 36:
now + timedelta(days := expires_days) if expires_days else None.
Python truthiness of the int: any nonzero value counts. -/
def expiresAtOf (now : Int) (expires_days : Option Int) : Option Int :=
  match expires_days with
  | some d => if d ≠ 0 then some (now + d * 86400) else none
  | none => none

/-- Fresh SERIAL id: one past the largest id ever assigned. -/
def freshKeyId (store : KeyStore) : Nat :=
  (store.map (fun r => r.id)).foldr max 0 + 1

/-- generate_api_key (src/security.py, lines 19-60): inserts a row holding
only the hash and returns it; is_active defaults TRUE, use_count 0. -/
def generate_api_key (store : KeyStore) (key_hash name : String) (now : Int)
    (expires_days : Option Int) (allowed_ips : List String) : KeyStore × ApiKeyRow :=
  let row : ApiKeyRow :=
    { id := freshKeyId store, key_hash := key_hash, name := name,
      created_at := now, expires_at := expiresAtOf now expires_days,
      is_active := true, last_used_at := none, use_count := 0,
      allowed_ips := allowed_ips }
  (store ++ [row], row)

/-! ## Job store model (src/queue_processor.py, schema from src/init_db.py) -/

/-- Status literals written by the queue processor. -/
def statusWaiting : String := "waiting"

def statusProcessing : String := "processing"

def statusDone : String := "done"

def statusError : String := "error"

/-- The values admitted by the CHECK constraint on transcricoes.status
(src/init_db.py, line 59). -/
def allowedStatusValues : List String :=
  ["waiting", "processing", "error", "concluido"]

def statusCheck (s : String) : Bool := allowedStatusValues.contains s

/-- A row of the transcricoes table (src/init_db.py, lines 51-62); the
nome_arquivo column is omitted because no modelled operation writes or
reads it. -/
structure Transcricao where
  id : Nat
  caminho_arquivo : String
  duracao : Option Int
  idioma : Option String
  data_envio : Int
  data_processamento : Option Int
  status : String
  texto : Option String
deriving Repr, DecidableEq

abbrev JobDb := List Transcricao

def freshJobId (db : JobDb) : Nat :=
  (db.map (fun r => r.id)).foldr max 0 + 1

/-- The INSERT of enqueue_transcription (src/queue_processor.py,
lines 119-126): a new row in status waiting, stamped with the submission
time. -/
def enqueue_transcription (db : JobDb) (caminho : String)
    (idioma : Option String) (now : Int) : JobDb × Transcricao :=
  let row : Transcricao :=
    { id := freshJobId db, caminho_arquivo := caminho, duracao := none,
      idioma := idioma, data_envio := now, data_processamento := none,
      status := statusWaiting, texto := none }
  (db ++ [row], row)

/-- SELECT id, caminho_arquivo, idioma FROM transcricoes WHERE id = $1 AND
status = waiting (src/queue_processor.py, lines 219-226). -/
def selectWaitingRow (db : JobDb) (tid : Nat) : Option Transcricao :=
  db.find? (fun r => r.id == tid && r.status == statusWaiting)

/-- UPDATE transcricoes SET status = processing, data_processamento = NOW()
WHERE id = $1 (src/queue_processor.py, lines 233-240). -/
def setProcessing (db : JobDb) (tid : Nat) (now : Int) : JobDb :=
  db.map (fun r =>
    if r.id == tid then
      { r with status := statusProcessing, data_processamento := some now }
    else r)

/-- UPDATE transcricoes SET status = done, texto = $1, idioma = $2,
duracao = $3 WHERE id = $4 (src/queue_processor.py, lines 282-295). Note
the WHERE clause filters by id only: there is no status guard. -/
def updateDone (db : JobDb) (tid : Nat) (text lang : Option String)
    (dur : Int) : JobDb :=
  db.map (fun r =>
    if r.id == tid then
      { r with
        status := statusDone, texto := text, idioma := lang,
        duracao := some dur }
    else r)

/-- UPDATE transcricoes SET status = error, texto = $1 WHERE id = $2
(src/queue_processor.py, lines 306-315), the message prefixed with Erro. -/
def updateError (db : JobDb) (tid : Nat) (msg : String) : JobDb :=
  db.map (fun r =>
    if r.id == tid then
      { r with status := statusError, texto := some ("Erro: " ++ msg) }
    else r)

/-- The dictionary shape of a whisper transcription result, as read by
result.get in the source; duration defaults to 0 there. -/
structure TResult where
  text : Option String
  language : Option String
  duration : Int
deriving Repr, DecidableEq

/-- Environment of one processa_transcricao call: the outcome of ensuring
the model is loaded (collapsing a load exception and the null-model
RuntimeError into one error), the ffmpeg presence test, the file-existence
test, and the engine call, which may raise, return a falsy or non-dict
value (ok none), or return a result dictionary. -/
structure PEnv where
  modelLoad : Except String Unit
  ffmpeg_ok : Bool
  file_exists : String → Bool
  transcribe : String → Option String → Except String (Option TResult)

/-- transcribe_options: language is set only when the stored idioma is
truthy (src/queue_processor.py, lines 263-265). -/
def langOpt : Option String → Option String
  | some s => if s ≠ "" then some s else none
  | none => none

def ffmpegMsg : String :=
  "ffmpeg não encontrado no sistema. Por favor instale ffmpeg para processar áudios."

def invalidResultMsg : String := "Resultado da transcrição inválido ou vazio"

/-- processa_transcricao (src/queue_processor.py, lines 207-319) as a
function from the table state to the new state, paired with the normal or
exceptional (re-raised) outcome of the call. The call is a no-op when the
row is not currently waiting; otherwise the row moves to processing and
then, in the same call, to done on success or to error on any failure,
whose message is recorded on the row and re-raised. -/
def processa_transcricao (e : PEnv) (db : JobDb) (tid : Nat) (now : Int) :
    JobDb × Except String Unit :=
  match selectWaitingRow db tid with
  | none => (db, .ok ())
  | some row =>
    let db1 := setProcessing db tid now
    match e.modelLoad with
    | .error m => (updateError db1 tid m, .error m)
    | .ok _ =>
      if e.ffmpeg_ok = false then
        (updateError db1 tid ffmpegMsg, .error ffmpegMsg)
      else if e.file_exists row.caminho_arquivo = false then
        let m := "Arquivo não encontrado: " ++ row.caminho_arquivo
        (updateError db1 tid m, .error m)
      else
        match e.transcribe row.caminho_arquivo (langOpt row.idioma) with
        | .error m => (updateError db1 tid m, .error m)
        | .ok none => (updateError db1 tid invalidResultMsg, .error invalidResultMsg)
        | .ok (some res) =>
          (updateDone db1 tid res.text res.language res.duration, .ok ())

/-! ### get_transcription_status (src/queue_processor.py, lines 321-369) -/

def basenameOf (p : String) : String :=
  String.mk ((splitOnChar '/' p.data).getLastD [])

/-- The response dictionary of get_transcription_status; the outer Option
on texto records whether the key is present in the dictionary at all. -/
structure StatusResposta where
  id : Nat
  caminho_arquivo : String
  nome_arquivo : String
  idioma : Option String
  status : String
  data_envio : Int
  data_processamento : Option Int
  duracao : Option Int
  texto : Option (Option String)
deriving Repr, DecidableEq

/-- get_transcription_status: raises ValueError (modelled as .error with
the message) when no row has the id; otherwise builds the response, adding
the texto key only when the status equals done (lines 363-365). -/
def get_transcription_status (db : JobDb) (tid : Nat) :
    Except String StatusResposta :=
  match db.find? (fun r => r.id == tid) with
  | none => .error ("Transcrição ID " ++ toString tid ++ " não encontrada")
  | some r =>
    .ok { id := r.id, caminho_arquivo := r.caminho_arquivo,
          nome_arquivo := basenameOf r.caminho_arquivo, idioma := r.idioma,
          status := r.status, data_envio := r.data_envio,
          data_processamento := r.data_processamento, duracao := r.duracao,
          texto := if r.status == statusDone then some r.texto else none }

/-! ## Queue worker model (src/queue_processor.py, lines 41-75, 371-421) -/

/-- One attempt of whisper.load_model: a loaded model, a falsy (null)
result, or a raised exception. -/
inductive LoadTry where
  | ok
  | null
  | exn (msg : String)
deriving Repr, DecidableEq

/-- inicializar_modelo (src/queue_processor.py, lines 41-75) as a function
of the per-attempt outcomes (loader n is the outcome of attempt n,
numbering attempts from 1). Returns the list of back-off sleeps performed,
in seconds, together with the outcome: ok true when a model was loaded,
ok false when the loop fell through with a null model, error when the last
attempt raised. The sleep 5 * attempt happens only between two failing
attempts, and only on the exception path. -/
def initAux (loader : Nat → LoadTry) : Nat → Nat → List Nat × Except String Bool
  | _, 0 => ([], .ok false)
  | current, remaining + 1 =>
    let att := current + 1
    match loader att with
    | .ok => ([], .ok true)
    | .null => initAux loader att remaining
    | .exn m =>
      if remaining = 0 then ([], .error m)
      else
        let rest := initAux loader att remaining
        (5 * att :: rest.1, rest.2)

def inicializar_modelo (loader : Nat → LoadTry) : List Nat × Except String Bool :=
  initAux loader 0 3

/-- Environment of one iteration of the processar_fila loop: whether the
claim query itself works (false models the catastrophic path caught by the
outer except), the outcome of the model re-initialisation attempted in
that outer except (its own failure is caught and logged too), and the
environment of the per-job processing call. -/
structure WEnv where
  fetch_ok : Bool
  reinit : Except String Unit
  penv : PEnv

/-- SELECT id FROM transcricoes WHERE status = waiting ORDER BY data_envio
ASC LIMIT 1 (src/queue_processor.py, lines 385-392): the first waiting row
of minimal data_envio, ties resolved by row order. The scan keeps the
current best and replaces it only on a strictly smaller timestamp. -/
def claimCandidateAux (best : Transcricao) : JobDb → Transcricao
  | [] => best
  | r :: rest =>
    if r.status == statusWaiting && decide (r.data_envio < best.data_envio) then
      claimCandidateAux r rest
    else claimCandidateAux best rest

def claimCandidate : JobDb → Option Transcricao
  | [] => none
  | r :: rest =>
    if r.status == statusWaiting then some (claimCandidateAux r rest)
    else claimCandidate rest

/-- The claim step of the worker as executed by the source: the fila query
selects the oldest waiting row, then processa_transcricao re-reads it
under the status = waiting guard and moves it to processing, stamping
data_processamento (src/queue_processor.py, lines 382-408 and 216-240). -/
def claim_next (db : JobDb) (now : Int) : JobDb × Option Transcricao :=
  match claimCandidate db with
  | none => (db, none)
  | some c =>
    match selectWaitingRow db c.id with
    | none => (db, none)
    | some r => (setProcessing db r.id now, some r)

/-- One pass of the while-true body of processar_fila
(src/queue_processor.py, lines 380-421), returning the new table state and
the seconds slept before the next pass: 10 on the catastrophic path (the
model re-initialisation failure there is itself caught), 5 when no waiting
row exists, 1 after a successful job, 3 after a failed job. -/
def fila_iter (e : WEnv) (db : JobDb) (now : Int) : JobDb × Nat :=
  if e.fetch_ok = false then
    match e.reinit with
    | .ok _ => (db, 10)
    | .error _ => (db, 10)
  else
    match claimCandidate db with
    | none => (db, 5)
    | some c =>
      match processa_transcricao e.penv db c.id now with
      | (db2, .ok _) => (db2, 1)
      | (db2, .error _) => (db2, 3)

/-- n passes of the loop body, with per-pass environments and clocks. -/
def runFila (envs : Nat → WEnv) (nows : Nat → Int) : Nat → JobDb → JobDb
  | 0, db => db
  | n + 1, db =>
    runFila (fun k => envs (k + 1)) (fun k => nows (k + 1)) n
      (fila_iter (envs 0) db (nows 0)).1

/-- processar_fila (src/queue_processor.py, lines 371-421): the startup
inicializar_modelo is awaited before the loop; if it raises, the worker
coroutine dies with that exception, and this is the only exit: every loop
pass, whatever happens in it, produces a successor state. -/
def processar_fila_model (startup : Except String Unit) (envs : Nat → WEnv)
    (nows : Nat → Int) (db : JobDb) (n : Nat) : Except String JobDb :=
  match startup with
  | .error m => .error m
  | .ok _ => .ok (runFila envs nows n db)

def isFatal {α : Type} : Except String α → Bool
  | .error _ => true
  | .ok _ => false

/-! ## Concrete fixtures used by witnesses and counterexamples -/

def c6row : ApiKeyRow :=
  { id := 1, key_hash := "h6", name := "k6", created_at := 0,
    expires_at := none, is_active := true, last_used_at := none,
    use_count := 0, allowed_ips := [] }

def c5row : ApiKeyRow :=
  { id := 1, key_hash := "kh5", name := "k5", created_at := 0,
    expires_at := some 10, is_active := true, last_used_at := none,
    use_count := 0, allowed_ips := [] }

def c3err : Transcricao :=
  { id := 2, caminho_arquivo := "uploads/b.wav", duracao := none,
    idioma := some "pt", data_envio := 0, data_processamento := some 1,
    status := statusError, texto := some "Erro: boom" }

def c3done : Transcricao :=
  { id := 1, caminho_arquivo := "uploads/a.wav", duracao := some 4,
    idioma := some "pt", data_envio := 0, data_processamento := some 1,
    status := statusDone, texto := some "ola" }

def c4row : Transcricao :=
  { id := 1, caminho_arquivo := "uploads/c.wav", duracao := none,
    idioma := some "pt", data_envio := 0, data_processamento := some 1,
    status := statusProcessing, texto := none }

def c2row : ApiKeyRow :=
  { id := 1, key_hash := "h2", name := "k2", created_at := 0,
    expires_at := none, is_active := true, last_used_at := none,
    use_count := 0, allowed_ips := ["10.0.0.0/24"] }

def c1row : Transcricao :=
  { id := 1, caminho_arquivo := "uploads/d.wav", duracao := none,
    idioma := some "pt", data_envio := 0, data_processamento := some 1,
    status := statusError, texto := some "Erro: x" }

/-- A processing environment in which everything succeeds. -/
def pe1 : PEnv :=
  { modelLoad := .ok (), ffmpeg_ok := true, file_exists := fun _ => true,
    transcribe := fun _ _ =>
      .ok (some { text := some "t", language := some "pt", duration := 3 }) }

def j1 : Transcricao :=
  { id := 1, caminho_arquivo := "uploads/j1.wav", duracao := none,
    idioma := none, data_envio := 10, data_processamento := none,
    status := statusWaiting, texto := none }

def j2 : Transcricao :=
  { id := 2, caminho_arquivo := "uploads/j2.wav", duracao := none,
    idioma := none, data_envio := 20, data_processamento := none,
    status := statusWaiting, texto := none }

/-- A worker-loop environment whose engine call raises boom. -/
def e7 : WEnv :=
  { fetch_ok := true, reinit := .ok (),
    penv := { modelLoad := .ok (), ffmpeg_ok := true,
              file_exists := fun _ => true,
              transcribe := fun _ _ => .error "boom" } }

/-- A loader whose three attempts raise e1, e2, e3. -/
def c9loader : Nat → LoadTry := fun n =>
  if n = 1 then .exn "e1" else if n = 2 then .exn "e2" else .exn "e3"

/-- Every CIDR-shaped entry of the list parses; under this hypothesis the
IP loop of validate_api_key cannot raise. -/
abbrev cidrSafe (entries : List String) : Prop :=
  ∀ e ∈ entries, charContains e.data '/' = true → (parseCIDR e).isSome

/-- The forward status transitions of the job state machine: stay in
place, waiting to processing, processing to a terminal state, or the
waiting-to-terminal composition performed inside one processing call. -/
def forwardB (a b : String) : Bool :=
  a == b
  || (a == statusWaiting
      && (b == statusProcessing || b == statusDone || b == statusError))
  || (a == statusProcessing && (b == statusDone || b == statusError))

/-! ## Claims -/

/-- Claim C10: calling key generation with expiry days equal to 0 produces
a key whose expires_at is null — a key that never expires, on which the
expiry test of validate_api_key is false at every instant — exactly as
when no expiry value is supplied, not a key that is expired immediately. -/
theorem C10_generate_zero_expiry (store : KeyStore) (kh nm : String)
    (now : Int) (aips : List String) :
    (generate_api_key store kh nm now (some 0) aips).2.expires_at = none
    ∧ (generate_api_key store kh nm now none aips).2.expires_at = none
    ∧ ∀ now2 : Int,
        isExpired (generate_api_key store kh nm now (some 0) aips).2 now2 = false := by
  refine ⟨rfl, rfl, fun now2 => rfl⟩

/-- Claim C4: the queue code consistently uses the literal strings waiting,
processing, done, error, but the store schema's declared CHECK constraint
admits concluido instead of done, so the terminal success status written
by the worker (statusDone, the literal of updateDone) is NOT admitted by
the schema constraint: after a successful transcription the table would
hold (and, in a real PostgreSQL database, reject) a status outside the
declared vocabulary. -/
theorem C4_done_not_admitted :
    statusCheck statusWaiting = true
    ∧ statusCheck statusProcessing = true
    ∧ statusCheck statusError = true
    ∧ statusCheck statusDone = false
    ∧ (updateDone [c4row] 1 (some "texto") (some "pt") 3).all
        (fun r => statusCheck r.status) = false := by
  refine ⟨rfl, rfl, rfl, rfl, rfl⟩

/-- Helper: countP is unchanged when the counted predicate agrees on the
list. -/
theorem countP_congr_list {α : Type} (p q : α → Bool) (l : List α)
    (h : ∀ x ∈ l, p x = q x) : l.countP p = l.countP q := by
  induction l with
  | nil => rfl
  | cons b t ih =>
    simp [List.countP_cons, h b (List.mem_cons_self b t),
      ih (fun x hx => h x (List.mem_cons_of_mem _ hx))]

/-- Claim C6 (amended): revoke reports whether a row with the id existed —
the count of rows matched by the WHERE clause, not whether a value
changed. Revoking a nonexistent id returns failure with the store
unchanged; revoking is idempotent on the store and repeatable without
error, and the second revoke of an existing key returns the same success
value again, because the row still matches. -/
theorem C6_revoke_semantics (store : KeyStore) (kid : Nat) :
    ((∀ r ∈ store, r.id ≠ kid) → revoke_api_key store kid = (store, false))
    ∧ (store.countP (fun r => r.id == kid) = 1 →
        (revoke_api_key store kid).2 = true)
    ∧ revoke_api_key (revoke_api_key store kid).1 kid
        = revoke_api_key store kid := by
  refine ⟨?_, ?_, ?_⟩
  · intro h
    unfold revoke_api_key
    have hc : store.countP (fun r => r.id == kid) = 0 :=
      List.countP_eq_zero.2 (fun r hr => by simp [h r hr])
    have hm : store.map
        (fun r => if r.id == kid then { r with is_active := false } else r) = store := by
      have := List.map_congr_left
        (l := store)
        (f := fun r => if r.id == kid then { r with is_active := false } else r)
        (g := fun r => r) (fun r hr => by simp [h r hr])
      simpa using this
    rw [hc, hm]
    show (store, containsSub "UPDATE 1" ("UPDATE " ++ toString (0 : Nat))) = (store, false)
    rfl
  · intro h
    unfold revoke_api_key
    rw [h]
    rfl
  · unfold revoke_api_key
    have hid : ∀ r : ApiKeyRow,
        ((if r.id == kid then { r with is_active := false } else r) : ApiKeyRow).id
          = r.id := by
      intro r; by_cases h : r.id == kid <;> simp [h]
    have hcount : (store.map
        (fun r => if r.id == kid then { r with is_active := false } else r)).countP
          (fun r => r.id == kid) = store.countP (fun r => r.id == kid) := by
      rw [List.countP_map]
      exact countP_congr_list _ _ _
        (fun r _ => by by_cases h : r.id = kid <;> simp [Function.comp, h])
    have hmap : (store.map
        (fun r => if r.id == kid then { r with is_active := false } else r)).map
          (fun r => if r.id == kid then { r with is_active := false } else r)
        = store.map (fun r => if r.id == kid then { r with is_active := false } else r) := by
      rw [List.map_map]
      exact List.map_congr_left (fun r _ => by
        by_cases h : r.id == kid <;> simp [Function.comp, h])
    rw [hcount, hmap]

/-- Claim C6, counterexample to the claim as stated: revoking the same
existing key twice does not report no change — after the first revoke has
already set is_active to false, the second call still returns true, since
the Postgres command tag counts rows matched by id whether or not any
value changed. -/
theorem C6_counterexample :
    (revoke_api_key [c6row] 1).1 = [{ c6row with is_active := false }]
    ∧ (revoke_api_key [c6row] 1).2 = true
    ∧ (revoke_api_key (revoke_api_key [c6row] 1).1 1).2 = true := by
  refine ⟨rfl, rfl, rfl⟩

/-- Claim C6, witness: the amended theorem applied to a one-key store, for
a nonexistent id and for the existing id. -/
theorem C6_witness :
    revoke_api_key [c6row] 2 = ([c6row], false)
    ∧ (revoke_api_key [c6row] 1).2 = true :=
  ⟨(C6_revoke_semantics [c6row] 2).1 (by decide),
   (C6_revoke_semantics [c6row] 1).2.1 (by decide)⟩

/-- Claim C5: a call of validate_api_key on a stored, active key whose
expires_at lies in the past rejects (returns no key info) and, as a side
effect, persists is_active = false for that key, so that a subsequent
get_api_keys listing already shows the key inactive although no explicit
revoke ran. -/
theorem C5_expiry_sticky (hashf : String → String) (store : KeyStore)
    (k : String) (row : ApiKeyRow) (cip : Option String) (now : Int)
    (hk : ¬ k = "")
    (hfind : store.find? (fun r => r.key_hash == hashf k) = some row)
    (hact : row.is_active = true)
    (hexp : isExpired row now = true) :
    validate_api_key hashf store k cip now
      = .ok (deactivateKey store row.id, none)
    ∧ ∀ e ∈ get_api_keys false (deactivateKey store row.id),
        e.id = row.id → e.is_active = false := by
  constructor
  · unfold validate_api_key
    rw [if_neg hk, hfind]
    simp [hact, hexp]
  · intro e he heid
    simp only [get_api_keys, if_neg (Bool.false_ne_true), List.mem_map] at he
    obtain ⟨r1, hr1, rfl⟩ := he
    simp only [deactivateKey, List.mem_map] at hr1
    obtain ⟨r0, hr0, rfl⟩ := hr1
    by_cases h : r0.id = row.id
    · simp [toKeyListing, h]
    · exfalso
      apply h
      simp [toKeyListing, h] at heid

/-- Claim C5, witness: a one-key store whose key expired at instant 10,
validated at instant 20: the call rejects, deactivates the key, and the
full listing afterwards shows the key inactive. -/
theorem C5_witness :
    validate_api_key (fun s => s) [c5row] "kh5" none 20
      = .ok (deactivateKey [c5row] 1, none)
    ∧ ∀ e ∈ get_api_keys false (deactivateKey [c5row] 1),
        e.id = 1 → e.is_active = false := by
  have h := C5_expiry_sticky (fun s => s) [c5row] "kh5" c5row none 20
    (by decide) (by decide) rfl rfl
  exact ⟨h.1, h.2⟩

/-- Claim C3 (amended): the status query fails with the NotFound error
when no row with the id exists, and when the row exists the returned
summary contains the texto key only when status is done — in particular,
when status is error the failure description stored in texto is NOT
included in the response: the code adds the key under the single condition
status equals done. -/
theorem C3_status_query (db : JobDb) (tid : Nat) :
    (db.find? (fun r => r.id == tid) = none →
      get_transcription_status db tid
        = .error ("Transcrição ID " ++ toString tid ++ " não encontrada"))
    ∧ ∀ r, db.find? (fun r2 => r2.id == tid) = some r →
        ∃ resp, get_transcription_status db tid = .ok resp
          ∧ resp.status = r.status
          ∧ resp.texto = (if r.status == statusDone then some r.texto else none) := by
  constructor
  · intro h
    unfold get_transcription_status
    rw [h]
  · intro r h
    unfold get_transcription_status
    rw [h]
    exact ⟨_, rfl, rfl, rfl⟩

/-- Claim C3, counterexample to the claim as stated: for a row in status
error carrying the diagnostic in texto, the response of the status query
contains no texto key at all — the stored failure description is not
surfaced to the caller. -/
theorem C3_counterexample :
    c3err.status = statusError
    ∧ c3err.texto = some "Erro: boom"
    ∧ (get_transcription_status [c3err] 2).map (fun resp => resp.texto)
        = .ok none := by
  refine ⟨rfl, rfl, rfl⟩

/-- Claim C3, witness: on an unknown id the query fails with the NotFound
message, and on a done row the summary carries the stored text. -/
theorem C3_witness :
    (get_transcription_status [c3done] 5
      = .error ("Transcrição ID " ++ toString 5 ++ " não encontrada"))
    ∧ ∃ resp, get_transcription_status [c3done] 1 = .ok resp
        ∧ resp.status = c3done.status
        ∧ resp.texto = (if c3done.status == statusDone then some c3done.texto else none) := by
  refine ⟨(C3_status_query [c3done] 5).1 (by decide), ?_⟩
  exact (C3_status_query [c3done] 1).2 c3done (by decide)

/-- Helper: when every CIDR entry parses, the short-circuiting IP loop
computes exactly the existence of a matching entry. -/
theorem ipLoop_eq_any (cstr : String) (cip : Nat) (entries : List String)
    (h : cidrSafe entries) :
    ipLoop cstr cip entries = .ok (entries.any (entryMatch cstr cip)) := by
  induction entries with
  | nil => rfl
  | cons e rest ih =>
    have hsafe : cidrSafe rest := fun x hx => h x (List.mem_cons_of_mem _ hx)
    by_cases hc : charContains e.data '/' = true
    · obtain ⟨bp, hbp⟩ := Option.isSome_iff_exists.1
        (h e (List.mem_cons_self e rest) hc)
      obtain ⟨b, p⟩ := bp
      by_cases hm : inNetwork cip b p = true
      · simp [ipLoop, entryMatch, hc, hbp, hm, List.any_cons]
      · simp [ipLoop, entryMatch, hc, hbp, hm, List.any_cons, ih hsafe]
    · by_cases hm : (cstr == e) = true
      · simp [ipLoop, entryMatch, hc, hm, List.any_cons]
      · simp [ipLoop, entryMatch, hc, hm, List.any_cons, ih hsafe]

/-- Claim C2 (amended): for a stored, active, unexpired key — when
allowed_ips is non-empty and a (truthy, parseable) caller IP is supplied,
validate accepts exactly when the IP equals a literal entry or falls
inside a CIDR entry, a single match short-circuiting to acceptance and no
match rejecting; when allowed_ips is empty, any caller IP is accepted; BUT
when allowed_ips is non-empty and no caller IP is supplied (or it is the
empty, falsy string), the code silently SKIPS the IP check and accepts:
the source guards the whole check with (allowed_ips and client_ip). -/
theorem C2_ip_policy (hashf : String → String) (store : KeyStore)
    (k : String) (row : ApiKeyRow) (now : Int)
    (hk : ¬ k = "")
    (hfind : store.find? (fun r => r.key_hash == hashf k) = some row)
    (hact : row.is_active = true)
    (hexp : isExpired row now = false) :
    (∀ cip, clientTruthy cip = false →
      validate_api_key hashf store k cip now
        = .ok (updateUsage store row.id now, some (toKeyInfo row)))
    ∧ (row.allowed_ips = [] → ∀ cip,
      validate_api_key hashf store k cip now
        = .ok (updateUsage store row.id now, some (toKeyInfo row)))
    ∧ ∀ cstr cipv, ¬ row.allowed_ips = [] → parseIPv4 cstr = some cipv →
        cidrSafe row.allowed_ips →
        validate_api_key hashf store k (some cstr) now
          = (if row.allowed_ips.any (entryMatch cstr cipv) then
              .ok (updateUsage store row.id now, some (toKeyInfo row))
            else .ok (store, none)) := by
  refine ⟨?_, ?_, ?_⟩
  · intro cip hcip
    unfold validate_api_key
    rw [if_neg hk, hfind]
    simp [hact, hexp, hcip]
  · intro hips cip
    unfold validate_api_key
    rw [if_neg hk, hfind]
    simp [hact, hexp, hips]
  · intro cstr cipv hips hparse hsafe
    have hcne : cstr ≠ "" := by
      intro hempty
      rw [hempty] at hparse
      have hnone : parseIPv4 "" = (none : Option Nat) := by decide
      rw [hnone] at hparse
      cases hparse
    have htruthy : clientTruthy (some cstr) = true := by
      simp [clientTruthy, hcne]
    unfold validate_api_key
    rw [if_neg hk, hfind]
    have hne : row.allowed_ips.isEmpty = false := by
      cases hv : row.allowed_ips with
      | nil => exact absurd hv hips
      | cons a l => rfl
    by_cases hany : row.allowed_ips.any (entryMatch cstr cipv) = true
    · simp [hact, hexp, hne, htruthy, hparse,
        ipLoop_eq_any cstr cipv row.allowed_ips hsafe, hany]
    · simp [hact, hexp, hne, htruthy, hparse,
        ipLoop_eq_any cstr cipv row.allowed_ips hsafe, hany]

/-- Claim C2, counterexample to the claim as stated: for a stored key with
the non-empty allowed_ips list 10.0.0.0/24, a validate call that supplies
NO caller IP does not reject — it skips the IP restriction entirely and
accepts, updating the usage statistics and returning the key info. -/
theorem C2_counterexample :
    ¬ c2row.allowed_ips = []
    ∧ validate_api_key (fun _ => "h2") [c2row] "key" none 0
        = .ok (updateUsage [c2row] 1 0, some (toKeyInfo c2row)) :=
  ⟨by decide, rfl⟩

/-- Claim C2, witness: the spec example — a key restricted to 10.0.0.0/24
accepts caller 10.0.0.5 and rejects caller 10.0.1.5. -/
theorem C2_witness :
    validate_api_key (fun _ => "h2") [c2row] "key" (some "10.0.0.5") 0
      = .ok (updateUsage [c2row] 1 0, some (toKeyInfo c2row))
    ∧ validate_api_key (fun _ => "h2") [c2row] "key" (some "10.0.1.5") 0
      = .ok ([c2row], none) := by
  have h := C2_ip_policy (fun _ => "h2") [c2row] "key" c2row 0
    (by decide) (by decide) rfl rfl
  constructor
  · have h3 := h.2.2 "10.0.0.5" 167772165 (by decide) (by decide) (by decide)
    rw [h3]
    rw [show c2row.allowed_ips.any (entryMatch "10.0.0.5" 167772165) = true from by decide]
    rfl
  · have h3 := h.2.2 "10.0.1.5" 167772421 (by decide) (by decide) (by decide)
    rw [h3]
    rw [show c2row.allowed_ips.any (entryMatch "10.0.1.5" 167772421) = false from by decide]
    simp


/-- Helper: the forward relation is reflexive. -/
theorem forwardB_refl (s : String) : forwardB s s = true := by
  simp [forwardB]

/-- Helper: what a successful waiting-row lookup guarantees. -/
theorem selectWaitingRow_spec (db : JobDb) (tid : Nat) (r : Transcricao)
    (h : selectWaitingRow db tid = some r) :
    r ∈ db ∧ r.id = tid ∧ r.status = statusWaiting := by
  have hm := List.mem_of_find?_eq_some h
  have hp := List.find?_some h
  simp only [Bool.and_eq_true, beq_iff_eq] at hp
  exact ⟨hm, hp.1, hp.2⟩

/-- Helper: on a waiting row, processa_transcricao ends in exactly one of
two shapes — the error update with the re-raised message, or the done
update, both applied on top of the processing update. -/
theorem processa_shape (e : PEnv) (db : JobDb) (tid : Nat) (now : Int)
    (row : Transcricao) (hsel : selectWaitingRow db tid = some row) :
    (∃ m, processa_transcricao e db tid now
      = (updateError (setProcessing db tid now) tid m, .error m))
    ∨ ∃ t l d, processa_transcricao e db tid now
      = (updateDone (setProcessing db tid now) tid t l d, .ok ()) := by
  unfold processa_transcricao
  rw [hsel]
  cases hml : e.modelLoad with
  | error m => exact Or.inl ⟨m, rfl⟩
  | ok u =>
    dsimp only
    by_cases hff : e.ffmpeg_ok = false
    · rw [if_pos hff]
      exact Or.inl ⟨_, rfl⟩
    · rw [if_neg hff]
      by_cases hfe : e.file_exists row.caminho_arquivo = false
      · rw [if_pos hfe]
        exact Or.inl ⟨_, rfl⟩
      · rw [if_neg hfe]
        cases ht : e.transcribe row.caminho_arquivo (langOpt row.idioma) with
        | error m => exact Or.inl ⟨m, rfl⟩
        | ok o =>
          cases o with
          | none => exact Or.inl ⟨_, rfl⟩
          | some res => exact Or.inr ⟨res.text, res.language, res.duration, rfl⟩

/-- Claim C1 (amended): under the sequential worker, job statuses advance
only forward: processa_transcricao is a no-op when the row is not
currently waiting (the guard in the code sits at claim time, on status
waiting), and every row of the resulting table comes from a row of the old
table with the same id related by forward steps only — a waiting row may
reach processing and then done or error within one call, and rows in any
other status, terminal ones included, are untouched. The done update
itself, however, filters by id alone with no status guard (see the
counterexample), so the claimed no-op-unless-processing guard on complete
holds only through the enclosing call, not of the UPDATE statement. -/
theorem C1_forward_only (e : PEnv) (db : JobDb) (tid : Nat) (now : Int)
    (huniq : (db.map (fun r => r.id)).Nodup) :
    (selectWaitingRow db tid = none →
      processa_transcricao e db tid now = (db, .ok ()))
    ∧ ∀ r2 ∈ (processa_transcricao e db tid now).1,
        ∃ r1 ∈ db, r1.id = r2.id ∧ forwardB r1.status r2.status = true := by
  constructor
  · intro h
    unfold processa_transcricao
    rw [h]
  · intro r2 hr2
    cases hsel : selectWaitingRow db tid with
    | none =>
      unfold processa_transcricao at hr2
      rw [hsel] at hr2
      exact ⟨r2, hr2, rfl, forwardB_refl _⟩
    | some row =>
      obtain ⟨hrowmem, hrowid, hrowst⟩ := selectWaitingRow_spec db tid row hsel
      rcases processa_shape e db tid now row hsel with ⟨m, hm⟩ | ⟨t, l, d, hm⟩
      · rw [hm] at hr2
        unfold updateError setProcessing at hr2
        obtain ⟨y, hy, heq2⟩ := List.mem_map.1 hr2
        obtain ⟨r1, hr1, heq1⟩ := List.mem_map.1 hy
        refine ⟨r1, hr1, ?_⟩
        subst heq2
        subst heq1
        by_cases hid : r1.id = tid
        · have hr1row : r1 = row :=
            List.inj_on_of_nodup_map huniq hr1 hrowmem (by rw [hid, hrowid])
          constructor
          · simp [hid]
          · rw [hr1row, hrowst]
            simp [hid, ← hr1row, forwardB]
        · constructor
          · simp [hid]
          · simp only [beq_iff_eq, hid, if_false]
            exact forwardB_refl _
      · rw [hm] at hr2
        unfold updateDone setProcessing at hr2
        obtain ⟨y, hy, heq2⟩ := List.mem_map.1 hr2
        obtain ⟨r1, hr1, heq1⟩ := List.mem_map.1 hy
        refine ⟨r1, hr1, ?_⟩
        subst heq2
        subst heq1
        by_cases hid : r1.id = tid
        · have hr1row : r1 = row :=
            List.inj_on_of_nodup_map huniq hr1 hrowmem (by rw [hid, hrowid])
          constructor
          · simp [hid]
          · rw [hr1row, hrowst]
            simp [hid, ← hr1row, forwardB]
        · constructor
          · simp [hid]
          · simp only [beq_iff_eq, hid, if_false]
            exact forwardB_refl _

/-- Claim C1, counterexample to the claim as stated: the done update
(UPDATE ... WHERE id only) applied to a row that is in the terminal error
status, not processing, is NOT a no-op — it transitions the row to done,
because the statement carries no status guard. -/
theorem C1_counterexample :
    c1row.status = statusError
    ∧ updateDone [c1row] 1 (some "t") (some "pt") 3
        = [{ c1row with
             status := statusDone, texto := some "t", idioma := some "pt",
             duracao := some 3 }]
    ∧ ¬ updateDone [c1row] 1 (some "t") (some "pt") 3 = [c1row] := by
  refine ⟨rfl, rfl, by decide⟩

/-- Claim C1, witness: the amended theorem applied to a one-row table
whose row is terminal — the whole processing call is a no-op on it. -/
theorem C1_witness :
    selectWaitingRow [c1row] 1 = none
    ∧ processa_transcricao pe1 [c1row] 1 9 = ([c1row], .ok ()) := by
  refine ⟨by decide, ?_⟩
  exact (C1_forward_only pe1 [c1row] 1 9 (by decide)).1 (by decide)

/-- Helper: the running best of the claim scan is either the seed or a
waiting row of the scanned tail. -/
theorem claimCandidateAux_cases : ∀ (l : JobDb) (best : Transcricao),
    claimCandidateAux best l = best ∨
      (claimCandidateAux best l ∈ l
        ∧ (claimCandidateAux best l).status = statusWaiting) := by
  intro l
  induction l with
  | nil => intro best; exact Or.inl rfl
  | cons r rest ih =>
    intro best
    unfold claimCandidateAux
    by_cases h : (r.status == statusWaiting
        && decide (r.data_envio < best.data_envio)) = true
    · rw [if_pos h]
      have hw : r.status = statusWaiting := by
        have hconj := h
        rw [Bool.and_eq_true] at hconj
        exact beq_iff_eq.1 hconj.1
      rcases ih r with h1 | ⟨h1, h2⟩
      · rw [h1]
        exact Or.inr ⟨List.mem_cons_self r rest, hw⟩
      · exact Or.inr ⟨List.mem_cons_of_mem _ h1, h2⟩
    · rw [if_neg h]
      rcases ih best with h1 | ⟨h1, h2⟩
      · exact Or.inl h1
      · exact Or.inr ⟨List.mem_cons_of_mem _ h1, h2⟩

/-- Helper: the claim scan is monotone — its result is at most the seed
timestamp and at most every waiting timestamp it scanned. -/
theorem claimCandidateAux_le : ∀ (l : JobDb) (best : Transcricao),
    (claimCandidateAux best l).data_envio ≤ best.data_envio
    ∧ ∀ r ∈ l, r.status = statusWaiting →
        (claimCandidateAux best l).data_envio ≤ r.data_envio := by
  intro l
  induction l with
  | nil => intro best; exact ⟨le_refl _, by simp⟩
  | cons r rest ih =>
    intro best
    unfold claimCandidateAux
    by_cases h : (r.status == statusWaiting
        && decide (r.data_envio < best.data_envio)) = true
    · rw [if_pos h]
      have hlt : r.data_envio < best.data_envio := by
        have hconj := h
        rw [Bool.and_eq_true] at hconj
        exact of_decide_eq_true hconj.2
      obtain ⟨ha, hb⟩ := ih r
      refine ⟨le_trans ha (le_of_lt hlt), ?_⟩
      intro x hx hxw
      rcases List.mem_cons.1 hx with rfl | hx
      · exact ha
      · exact hb x hx hxw
    · rw [if_neg h]
      obtain ⟨ha, hb⟩ := ih best
      refine ⟨ha, ?_⟩
      intro x hx hxw
      rcases List.mem_cons.1 hx with rfl | hx
      · have hnlt : ¬ x.data_envio < best.data_envio := by
          intro hlt
          exact h (by simp [hxw, hlt])
        exact le_trans ha (le_of_not_lt hnlt)
      · exact hb x hx hxw

/-- Helper: a successful claim query returns a waiting row of the table
whose submission timestamp is minimal among all waiting rows. -/
theorem claimCandidate_spec : ∀ (db : JobDb) (c : Transcricao),
    claimCandidate db = some c →
    c ∈ db ∧ c.status = statusWaiting
      ∧ ∀ r ∈ db, r.status = statusWaiting → c.data_envio ≤ r.data_envio := by
  intro db
  induction db with
  | nil => intro c h; cases h
  | cons r rest ih =>
    intro c h
    unfold claimCandidate at h
    by_cases hw : (r.status == statusWaiting) = true
    · rw [if_pos hw] at h
      have hc : claimCandidateAux r rest = c := Option.some.inj h
      have hw' : r.status = statusWaiting := beq_iff_eq.1 hw
      obtain ⟨ha, hb⟩ := claimCandidateAux_le rest r
      constructor
      · rcases claimCandidateAux_cases rest r with h1 | ⟨h1, _⟩
        · rw [← hc, h1]; exact List.mem_cons_self r rest
        · rw [← hc]; exact List.mem_cons_of_mem _ h1
      constructor
      · rcases claimCandidateAux_cases rest r with h1 | ⟨_, h2⟩
        · rw [← hc, h1]; exact hw'
        · rw [← hc]; exact h2
      · intro x hx hxw
        rcases List.mem_cons.1 hx with rfl | hx
        · rw [← hc]; exact ha
        · rw [← hc]; exact hb x hx hxw
    · rw [if_neg hw] at h
      obtain ⟨h1, h2, h3⟩ := ih c h
      refine ⟨List.mem_cons_of_mem _ h1, h2, ?_⟩
      intro x hx hxw
      rcases List.mem_cons.1 hx with rfl | hx
      · exact absurd (by simp [hxw]) hw
      · exact h3 x hx hxw

/-- Helper: with no waiting row, the claim query is empty. -/
theorem claimCandidate_eq_none : ∀ db : JobDb,
    (∀ r ∈ db, ¬ r.status = statusWaiting) → claimCandidate db = none := by
  intro db
  induction db with
  | nil => intro _; rfl
  | cons r rest ih =>
    intro h
    unfold claimCandidate
    rw [if_neg (by simp [h r (List.mem_cons_self r rest)])]
    exact ih (fun x hx => h x (List.mem_cons_of_mem _ hx))

/-- Helper: with distinct ids, the guarded re-read inside the processing
call finds exactly the row the claim query selected. -/
theorem claimed_select (db : JobDb) (c : Transcricao)
    (huniq : (db.map (fun r => r.id)).Nodup)
    (hc : claimCandidate db = some c) :
    selectWaitingRow db c.id = some c := by
  obtain ⟨hmem, hst, _⟩ := claimCandidate_spec db c hc
  cases hfind : selectWaitingRow db c.id with
  | none =>
    exfalso
    have := List.find?_eq_none.1 hfind c hmem
    simp [hst] at this
  | some r =>
    obtain ⟨hrmem, hrid, _⟩ := selectWaitingRow_spec db c.id r hfind
    have : r = c := List.inj_on_of_nodup_map huniq hrmem hmem hrid
    rw [this]

/-- Claim C8: the claim step selects the single oldest waiting row —
strict FIFO on data_envio, ties resolved by insertion order — transitions
it to processing while stamping data_processamento, and returns it; with
no waiting row it returns none with the table unchanged, so calling it
repeatedly in that state is safe and keeps returning none. -/
theorem C8_claim_next (db : JobDb) (now : Int)
    (huniq : (db.map (fun r => r.id)).Nodup) :
    ((∀ r ∈ db, ¬ r.status = statusWaiting) → claim_next db now = (db, none))
    ∧ ∀ c, claimCandidate db = some c →
        claim_next db now = (setProcessing db c.id now, some c)
        ∧ c ∈ db ∧ c.status = statusWaiting
        ∧ (∀ r ∈ db, r.status = statusWaiting → c.data_envio ≤ r.data_envio)
        ∧ { c with status := statusProcessing, data_processamento := some now }
            ∈ (claim_next db now).1 := by
  constructor
  · intro h
    unfold claim_next
    rw [claimCandidate_eq_none db h]
  · intro c hc
    obtain ⟨hmem, hst, hmin⟩ := claimCandidate_spec db c hc
    have hsel : selectWaitingRow db c.id = some c := claimed_select db c huniq hc
    have hrun : claim_next db now = (setProcessing db c.id now, some c) := by
      unfold claim_next
      rw [hc]
      dsimp only
      rw [hsel]
    refine ⟨hrun, hmem, hst, hmin, ?_⟩
    rw [hrun]
    have himg := List.mem_map_of_mem
      (fun r => if r.id == c.id then
        { r with status := statusProcessing, data_processamento := some now }
      else r) hmem
    simpa [setProcessing] using himg

/-- Claim C8, witness: a two-row table with both rows waiting, the first
older — the claim step takes the first, moves it to processing stamped at
the claim instant, and on a table with no waiting row it returns none with
the table unchanged. -/
theorem C8_witness :
    (claim_next [j1, j2] 50 = (setProcessing [j1, j2] 1 50, some j1)
      ∧ { j1 with status := statusProcessing, data_processamento := some 50 }
          ∈ (claim_next [j1, j2] 50).1)
    ∧ claim_next [c1row] 7 = ([c1row], none) := by
  have h := (C8_claim_next [j1, j2] 50 (by decide)).2 j1 (by decide)
  refine ⟨⟨h.1, h.2.2.2.2⟩, ?_⟩
  exact (C8_claim_next [c1row] 7 (by decide)).1 (by decide)

/-- Claim C7: the worker loop never terminates because of one job or one
transient infrastructure error — the loop model is fatal exactly when the
startup engine load (with its own retries) is fatal, and any pass of the
loop produces a successor state; in particular, after a per-job failure
the pass records the error (with its message) on that job, sleeps the
short 3-second cooldown, and returns to the top of the loop. -/
theorem C7_worker_liveness (startup : Except String Unit) (envs : Nat → WEnv)
    (nows : Nat → Int) (db : JobDb) (n : Nat) :
    isFatal (processar_fila_model startup envs nows db n) = isFatal startup
    ∧ ∀ (e : WEnv) (db0 : JobDb) (now : Int) (c : Transcricao) (db1 : JobDb)
        (m : String),
        (db0.map (fun r => r.id)).Nodup →
        e.fetch_ok = true →
        claimCandidate db0 = some c →
        processa_transcricao e.penv db0 c.id now = (db1, .error m) →
        fila_iter e db0 now = (db1, 3)
        ∧ ∃ r ∈ db1, r.id = c.id ∧ r.status = statusError
            ∧ r.texto = some ("Erro: " ++ m) := by
  constructor
  · cases startup <;> rfl
  · intro e db0 now c db1 m huniq hf hcand hproc
    have hsel : selectWaitingRow db0 c.id = some c :=
      claimed_select db0 c huniq hcand
    obtain ⟨hmem, hst, _⟩ := claimCandidate_spec db0 c hcand
    have hiter : fila_iter e db0 now = (db1, 3) := by
      unfold fila_iter
      rw [if_neg (by simp [hf]), hcand]
      dsimp only
      rw [hproc]
    refine ⟨hiter, ?_⟩
    rcases processa_shape e.penv db0 c.id now c hsel with ⟨m2, hm⟩ | ⟨t, l, d, hm⟩
    · rw [hm] at hproc
      have hdb : updateError (setProcessing db0 c.id now) c.id m2 = db1 :=
        congrArg Prod.fst hproc
      have hmm : m2 = m := by
        have h2 := congrArg Prod.snd hproc
        simpa using h2
      subst hmm
      rw [← hdb]
      refine ⟨{ c with
        status := statusError, texto := some ("Erro: " ++ m2),
        data_processamento := some now }, ?_, rfl, rfl, rfl⟩
      unfold updateError setProcessing
      have h1 := List.mem_map_of_mem
        (fun r => if r.id == c.id then
          { r with status := statusProcessing, data_processamento := some now }
        else r) hmem
      have h2 := List.mem_map_of_mem
        (fun r => if r.id == c.id then
          { r with status := statusError, texto := some ("Erro: " ++ m2) }
        else r) h1
      simpa using h2
    · rw [hm] at hproc
      have h2 := congrArg Prod.snd hproc
      simp at h2

/-- Claim C7, witness: a worker pass over a one-row queue whose engine
call raises boom — the pass ends with the row marked error, a 3-second
cooldown, and the loop continuing. -/
theorem C7_witness :
    fila_iter e7 [j1] 0 = (updateError (setProcessing [j1] 1 0) 1 "boom", 3)
    ∧ ∃ r ∈ updateError (setProcessing [j1] 1 0) 1 "boom",
        r.id = 1 ∧ r.status = statusError ∧ r.texto = some ("Erro: " ++ "boom") := by
  have h := (C7_worker_liveness (.ok ()) (fun _ => e7) (fun _ => 0) [j1] 0).2
    e7 [j1] 0 j1 (updateError (setProcessing [j1] 1 0) 1 "boom") "boom"
    (by decide) rfl (by decide) rfl
  exact h

/-- Helper: a successful attempt returns the model at once, with no
further sleeps. -/
theorem initAux_ok (loader : Nat → LoadTry) (cur rem : Nat)
    (h : loader (cur + 1) = .ok) :
    initAux loader cur (rem + 1) = ([], .ok true) := by
  unfold initAux
  dsimp only
  rw [h]

/-- Helper: an exception on the last remaining attempt re-raises with no
further sleep. -/
theorem initAux_exn_last (loader : Nat → LoadTry) (cur : Nat) (m : String)
    (h : loader (cur + 1) = .exn m) :
    initAux loader cur 1 = ([], .error m) := by
  unfold initAux
  dsimp only
  rw [h]
  simp

/-- Helper: an exception with attempts still remaining sleeps 5 times the
attempt number, then retries. -/
theorem initAux_exn_mid (loader : Nat → LoadTry) (cur rem : Nat) (m : String)
    (h : loader (cur + 1) = .exn m) (hrem : ¬ rem = 0) :
    initAux loader cur (rem + 1)
      = (5 * (cur + 1) :: (initAux loader (cur + 1) rem).1,
         (initAux loader (cur + 1) rem).2) := by
  conv_lhs => unfold initAux
  dsimp only
  rw [h]
  dsimp only
  rw [if_neg hrem]

/-- Claim C9 (amended): model loading makes at most 3 attempts; between
failing attempts it sleeps a linearly increasing backoff of 5 then 10
seconds — only two delays separate three attempts, so no 15-second delay
ever occurs — and after the third failed attempt it re-raises the load
error with no further sleep; a successful attempt returns the loaded model
immediately. -/
theorem C9_retry_schedule (loader : Nat → LoadTry) (m1 m2 m3 : String) :
    (loader 1 = .ok → inicializar_modelo loader = ([], .ok true))
    ∧ (loader 1 = .exn m1 → loader 2 = .ok →
        inicializar_modelo loader = ([5], .ok true))
    ∧ (loader 1 = .exn m1 → loader 2 = .exn m2 → loader 3 = .exn m3 →
        inicializar_modelo loader = ([5, 10], .error m3)) := by
  refine ⟨?_, ?_, ?_⟩
  · intro h1
    show initAux loader 0 3 = ([], .ok true)
    exact initAux_ok loader 0 2 h1
  · intro h1 h2
    show initAux loader 0 3 = ([5], .ok true)
    have e1 : initAux loader 0 3
        = (5 * 1 :: (initAux loader 1 2).1, (initAux loader 1 2).2) :=
      initAux_exn_mid loader 0 2 m1 h1 (by decide)
    have e2 : initAux loader 1 2 = ([], .ok true) := initAux_ok loader 1 1 h2
    rw [e1, e2]
  · intro h1 h2 h3
    show initAux loader 0 3 = ([5, 10], .error m3)
    have e1 : initAux loader 0 3
        = (5 * 1 :: (initAux loader 1 2).1, (initAux loader 1 2).2) :=
      initAux_exn_mid loader 0 2 m1 h1 (by decide)
    have e2 : initAux loader 1 2
        = (5 * 2 :: (initAux loader 2 1).1, (initAux loader 2 1).2) :=
      initAux_exn_mid loader 1 1 m2 h2 (by decide)
    have e3 : initAux loader 2 1 = ([], .error m3) :=
      initAux_exn_last loader 2 m3 h3
    rw [e1, e2, e3]

/-- Claim C9, counterexample to the claim as stated: with every attempt
raising, the sleeps actually performed are 5 and 10 seconds only — two
delays between the three attempts — and no 15-second delay ever occurs,
contrary to the claimed 5s, 10s, 15s schedule. -/
theorem C9_counterexample :
    inicializar_modelo (fun _ => .exn "load failed")
      = ([5, 10], .error "load failed")
    ∧ ¬ 15 ∈ (inicializar_modelo (fun _ => .exn "load failed")).1 := by
  exact ⟨rfl, by decide⟩

/-- Claim C9, witness: the amended schedule at a loader failing all three
attempts, and at one succeeding immediately. -/
theorem C9_witness :
    inicializar_modelo c9loader = ([5, 10], .error "e3")
    ∧ inicializar_modelo (fun _ => .ok) = ([], .ok true) :=
  ⟨(C9_retry_schedule c9loader "e1" "e2" "e3").2.2 rfl rfl rfl,
   (C9_retry_schedule (fun _ => .ok) "x" "x" "x").1 rfl⟩
